import Mathlib

/-!
Verification development for the Yourl.Cloud marketing-gate application.

This file gives a shallow embedding of the marketing-code subsystem of
`app.py` (code generation, caching, resolver fallback chain, the access
gate's POST handler, code recovery) and of
`scripts/database/marketing_code_manager.py` (code validation and use),
and proves the behavioural properties stated in the specification.

Modelling conventions:
* Python's `random` module (Mersenne Twister) is modelled by a concrete
  deterministic generator `PRNG`: the claims under verification depend only
  on the generator being a deterministic function of the seed, on
  `random.choice` returning an element of its list, and on
  `random.randint(a, b)` returning a value in `[a, b]`.
* `hash` (CPython string hash) is salted per process (hash
  randomization): it is modelled by `pyHashSalted`, a deterministic
  function of the process salt and the string content; `pyHash` is its
  specialization to one fixed reference process, used by the within-run
  embedding.  `hashlib.md5(..).hexdigest()` is not salted and is modelled
  by a fixed deterministic function `md5hex` returning 32 hexadecimal
  characters, which is the only property of MD5 the code relies on.
* External effects (git subprocess, database client, secret-manager
  client, environment variables) are modelled by a `World` record; a store
  lookup is `Option (Option String)` where `none` models a raised
  exception and `some none` models "no value found".
* Exceptions that the Python code does not catch are modelled with
  `Except Unit`.
-/

namespace YourlCloud

/-! ## Character classes -/

/-- `[A-Z]` as a character test (by code point). -/
def isUpperAZ (c : Char) : Bool := 65 ≤ c.toNat && c.toNat ≤ 90

/-- `[0-9]` as a character test (by code point). -/
def isDigit09 (c : Char) : Bool := 48 ≤ c.toNat && c.toNat ≤ 57

/-- The symbol class of the specified format regex
`[!@#$%^&*+=?~]` — the twelve characters `! @ # $ % ^ & * + = ? ~`,
given by code point. -/
def isSymbolChar (c : Char) : Bool :=
  c.toNat = 33 || c.toNat = 64 || c.toNat = 35 || c.toNat = 36 ||
  c.toNat = 37 || c.toNat = 94 || c.toNat = 38 || c.toNat = 42 ||
  c.toNat = 43 || c.toNat = 61 || c.toNat = 63 || c.toNat = 126

/-- Membership in Python's check string `'0123456789abcdefABCDEF'`. -/
def isHexChar (c : Char) : Bool :=
  (48 ≤ c.toNat && c.toNat ≤ 57) || (97 ≤ c.toNat && c.toNat ≤ 102) ||
  (65 ≤ c.toNat && c.toNat ≤ 70)

/-- Value of a hexadecimal digit character (0 for non-hex input). -/
def hexDigitVal (c : Char) : Nat :=
  if 48 ≤ c.toNat && c.toNat ≤ 57 then c.toNat - 48
  else if 97 ≤ c.toNat && c.toNat ≤ 102 then c.toNat - 87
  else if 65 ≤ c.toNat && c.toNat ≤ 70 then c.toNat - 55
  else 0

/-- Decimal digit character for `n % 10`. -/
def digitChar (n : Nat) : Char :=
  match n % 10 with
  | 0 => '0' | 1 => '1' | 2 => '2' | 3 => '3' | 4 => '4'
  | 5 => '5' | 6 => '6' | 7 => '7' | 8 => '8' | _ => '9'

/-- Lower-case hexadecimal digit character for `n % 16`. -/
def hexDigitChar (n : Nat) : Char :=
  match n % 16 with
  | 0 => '0' | 1 => '1' | 2 => '2' | 3 => '3' | 4 => '4'
  | 5 => '5' | 6 => '6' | 7 => '7' | 8 => '8' | 9 => '9'
  | 10 => 'a' | 11 => 'b' | 12 => 'c' | 13 => 'd' | 14 => 'e' | _ => 'f'

/-! ## Decimal rendering (model of Python `f"{number}"` for a non-negative int) -/

/-- Fuel-based decimal rendering; with fuel `> n` this is the standard
most-significant-first decimal digit string of `n`. -/
def decCharsAux : Nat → Nat → List Char
  | 0, _ => []
  | fuel + 1, n =>
    if n < 10 then [digitChar n]
    else decCharsAux fuel (n / 10) ++ [digitChar n]

/-- Decimal digit characters of `n` (model of Python integer formatting). -/
def decChars (n : Nat) : List Char := decCharsAux (n + 1) n

/-- Decimal rendering of `n` as a string. -/
def natDecString (n : Nat) : String := String.mk (decChars n)

/-! ## The closed word and symbol lists (transcribed from `app.py`) -/

/-- The marketing word list of `generate_marketing_code` /
`generate_marketing_code_from_hash` in `app.py`. -/
def marketingWords : List String :=
  ["CLOUD", "FUTURE", "INNOVATE", "DREAM", "BUILD", "CREATE", "LAUNCH", "FLY",
   "SPARK", "SHINE", "GLOW", "RISE", "LEAP", "JUMP", "DASH", "ZOOM",
   "POWER", "MAGIC", "WONDER", "AMAZE", "THRILL", "EXCITE", "INSPIRE", "IGNITE",
   "ROCKET", "STAR", "MOON", "SUN", "OCEAN", "MOUNTAIN", "FOREST", "RIVER",
   "TECH", "AI", "CODE", "DATA", "SMART", "FAST", "SECURE", "TRUST",
   "FRIEND", "FAMILY", "TEAM", "SQUAD", "CREW", "GANG", "TRIBE", "CLAN"]

/-- The ASCII symbol list of `app.py` (`ascii_symbols`). -/
def asciiSymbols : List String :=
  ["!", "@", "#", "$", "%", "&", "*", "+", "=", "?", "~", "^"]

/-! ## Deterministic PRNG (model of the seeded `random` module) -/

/-- State of the pseudo-random generator. -/
structure PRNG where
  state : Nat
deriving DecidableEq

/-- Model of `random.seed(hash_num)`: the (possibly negative) Python int
seed is reduced to a 64-bit state. -/
def randomSeed (hashNum : Int) : PRNG :=
  ⟨(hashNum % (2 ^ 64 : Nat)).toNat⟩

/-- One draw: a 64-bit linear-congruential step; returns the draw and the
next state.  Stands in for one Mersenne-Twister output. -/
def prngNext (g : PRNG) : Nat × PRNG :=
  let s := (g.state * 6364136223846793005 + 1442695040888963407) % (2 ^ 64)
  (s / 2 ^ 16, ⟨s⟩)

/-! ## Models of runtime hash primitives -/

/-- Model of CPython `hash(str)` with hash randomization made explicit:
`salt` is the per-process randomization seed (`PYTHONHASHSEED`).  Within
one process the hash is a deterministic function of the content (a 61-bit
polynomial fold), but two processes generally run with different salts
and hash the same string differently. -/
def pyHashSalted (salt : Nat) (s : String) : Int :=
  (s.data.foldl (fun a c => (a * 1000003 + c.toNat + salt) % (2 ^ 61 - 1))
    (97 + salt + s.length) : Nat)

/-- The string hash of one fixed reference process (salt 0); the
within-run embedding below is the program as executed in that process. -/
def pyHash (s : String) : Int := pyHashSalted 0 s

/-- Model of `hashlib.md5(x).hexdigest()`: a deterministic 32-character
hexadecimal digest of the input. -/
def md5hex (s : String) : String :=
  String.mk (((List.range 32).map (fun i => hexDigitChar ((pyHash s).toNat + 7 * i))))

/-! ## Python string helpers -/

/-- Python slice `s[:n]`. -/
def pySlice (n : Nat) (s : String) : String := String.mk (s.data.take n)

/-- Whitespace test for `str.strip()`. -/
def isPySpace (c : Char) : Bool :=
  c.toNat = 32 || c.toNat = 9 || c.toNat = 10 || c.toNat = 13 ||
  c.toNat = 11 || c.toNat = 12

/-- Python `s.strip()`. -/
def pyStrip (s : String) : String :=
  String.mk (((s.data.dropWhile isPySpace).reverse.dropWhile isPySpace).reverse)

/-- Python truthiness of an optional string (`None` and `""` are falsy). -/
def pyTruthy : Option String → Bool
  | some s => !(s == "")
  | none => false

/-! ## Seed interpretation (`int(commit_hash, 16)` and the hash fallback) -/

/-- Model of `int(s, 16)` on a string of plain hexadecimal digits:
`none` models the `ValueError` raised on the empty string. -/
def intHex? (s : String) : Option Nat :=
  if s.data ≠ [] ∧ s.data.all isHexChar then
    some (s.data.foldl (fun a c => a * 16 + hexDigitVal c) 0)
  else none

/-- The numeric seed computed by `generate_marketing_code_from_hash`:
valid-hex strings (other than `"unknown"`) are read in base 16, anything
else (including the empty string, whose `int` call raises `ValueError`
and is caught) falls back to the content hash. -/
def hashNum (commitHash : String) : Int :=
  if commitHash ≠ "unknown" ∧ commitHash.data.all isHexChar then
    match intHex? commitHash with
    | some n => (n : Int)
    | none => pyHash commitHash
  else pyHash commitHash

/-! ## The generation algorithm body -/

/-- The seeded generation algorithm shared by `generate_marketing_code`
and `generate_marketing_code_from_hash`: seed the generator, choose a
word, choose a symbol, draw a number in `[10, 999]`, and concatenate
`word ++ number ++ symbol`. -/
def genBody (hashNum : Int) : String :=
  let g0 := randomSeed hashNum
  let d1 := prngNext g0
  let word := marketingWords.getD (d1.1 % marketingWords.length) ""
  let d2 := prngNext d1.2
  let symbol := asciiSymbols.getD (d2.1 % asciiSymbols.length) ""
  let d3 := prngNext d2.2
  let number := 10 + d3.1 % 990
  word ++ natDecString number ++ symbol

/-! ## `generate_marketing_code_from_hash` with its module cache -/

/-- The module-level dict `_generated_hash_code_cache`. -/
abbrev HashCache := List (String × String)

/-- Dictionary lookup in the cache model. -/
def cacheLookup (c : HashCache) (k : String) : Option String :=
  (c.find? (fun p => p.1 = k)).map (fun p => p.2)

/-- `generate_marketing_code_from_hash(commit_hash)`: return the cached
code when present, otherwise run the generation algorithm, store and
return it.  The final `Nat` counts invocations of the generation
algorithm in this call (the call-count instrumentation observable). -/
def generateMarketingCodeFromHash (commitHash : String) (cache : HashCache) :
    String × HashCache × Nat :=
  match cacheLookup cache commitHash with
  | some v => (v, cache, 0)
  | none =>
    let password := genBody (hashNum commitHash)
    (password, (commitHash, password) :: cache, 1)

/-- The numeric seed as computed in a process whose hash-randomization
salt is `salt`: the base-16 branch is content-deterministic, the
`hash(commit_hash)` fallback depends on the salt.  `hashNum` is the
specialization to the reference process (salt 0). -/
def hashNumInRun (salt : Nat) (commitHash : String) : Int :=
  if commitHash ≠ "unknown" ∧ commitHash.data.all isHexChar then
    match intHex? commitHash with
    | some n => (n : Int)
    | none => pyHashSalted salt commitHash
  else pyHashSalted salt commitHash

/-- `generate_marketing_code_from_hash` as executed in a process whose
hash-randomization salt is `salt` (a fresh run starts from the empty
cache).  Specializing the salt to 0 gives `generateMarketingCodeFromHash`
definitionally. -/
def generateMarketingCodeFromHashInRun (salt : Nat) (commitHash : String)
    (cache : HashCache) : String × HashCache × Nat :=
  match cacheLookup cache commitHash with
  | some v => (v, cache, 0)
  | none =>
    let password := genBody (hashNumInRun salt commitHash)
    (password, (commitHash, password) :: cache, 1)

/-! ## The format regex `^[A-Z]+[0-9]{2,3}[!@#$%^&*+=?~]$` -/

/-- Decidable matcher for the specification regex
`^[A-Z]+[0-9]{2,3}[!@#$%^&*+=?~]$`.  Because the three character classes
are pairwise disjoint, greedy scanning is equivalent to the regex. -/
def matchesCodeFormat (s : String) : Bool :=
  !(s.data.takeWhile isUpperAZ).isEmpty &&
  (((s.data.dropWhile isUpperAZ).takeWhile isDigit09).length == 2 ||
   ((s.data.dropWhile isUpperAZ).takeWhile isDigit09).length == 3) &&
  (match (s.data.dropWhile isUpperAZ).dropWhile isDigit09 with
   | [c] => isSymbolChar c
   | _ => false)

/-! ## The process world: environment, git, external stores -/

/-- External state visible to the resolver functions in `app.py`.
A store lookup field of type `Option (Option String)` is `none` when the
whole `try` block raises, `some none` when the client returns no value,
and `some (some c)` when it returns the string `c`. -/
structure World where
  gitHead : Option String
  buildId : Option String
  deploymentId : Option String
  dbConnStr : Option String
  dbCurrent : Option (Option String)
  dbNext : Option (Option String)
  smCurrent : Option (Option String)
  smNext : Option (Option String)
  buildMarketingCode : Option String
deriving DecidableEq

/-- A store lookup step yields a code only when the lookup neither raised
nor came back empty/falsy (`if current_code:` in `app.py`). -/
def storeHit : Option (Option String) → Option String
  | some (some c) => if c == "" then none else some c
  | _ => none

/-- The fallback identifier of `generate_marketing_code` when git is
unavailable: `os.environ.get('BUILD_ID', os.environ.get('DEPLOYMENT_ID',
'stable-fallback'))`. -/
def fallbackId (w : World) : String :=
  (w.buildId.getD (w.deploymentId.getD "stable-fallback"))

/-- The 8-character commit identifier computed by
`generate_marketing_code`: git output stripped and sliced to 8, or the
first 8 characters of the MD5 digest of the fallback identifier. -/
def commitHash8 (w : World) : String :=
  match w.gitHead with
  | some h => pySlice 8 (pyStrip h)
  | none => pySlice 8 (md5hex (fallbackId w))

/-- `generate_marketing_code()` with its module cache
`_generated_code_cache`: return the cached code if present, otherwise
seed from the commit identifier and generate.  The `int(commit_hash, 16)`
call is not guarded in the source, so a non-hex identifier raises
(modelled by `Except.error`). -/
def generateMarketingCode (w : World) (cache : Option String) :
    Except Unit (String × Option String) :=
  match cache with
  | some v => .ok (v, some v)
  | none =>
    match intHex? (commitHash8 w) with
    | some n => let password := genBody (n : Int); .ok (password, some password)
    | none => .error ()

/-- `get_current_marketing_code()`: database, then Secret Manager, then
the `BUILD_MARKETING_CODE` environment variable, then generation from the
current commit.  Returns the code and the (possibly updated) generation
cache. -/
def getCurrentMarketingCode (w : World) (cache : Option String) :
    Except Unit (String × Option String) :=
  match (if pyTruthy w.dbConnStr then storeHit w.dbCurrent else none) with
  | some c => .ok (c, cache)
  | none =>
    match storeHit w.smCurrent with
    | some c => .ok (c, cache)
    | none =>
      if pyTruthy w.buildMarketingCode then
        .ok (w.buildMarketingCode.getD "", cache)
      else
        generateMarketingCode w cache

/-- The seed string used by `get_next_marketing_code`'s generation
fallback: the commit identifier with the `"_next"` suffix, or
`"next_unknown"` when git is unavailable. -/
def nextHashOf (w : World) : String :=
  match w.gitHead with
  | some h => pySlice 8 (pyStrip h) ++ "_next"
  | none => "next_unknown"

/-- `get_next_marketing_code()`: database, then Secret Manager, then
generation from the suffixed commit identifier through the hash-code
cache.  There is no environment-variable step.  Always succeeds: the
suffixed seed is never valid hex, so its `int` conversion is never
attempted un-guarded. -/
def getNextMarketingCode (w : World) (hc : HashCache) : String × HashCache :=
  match (if pyTruthy w.dbConnStr then storeHit w.dbNext else none) with
  | some c => (c, hc)
  | none =>
    match storeHit w.smNext with
    | some c => (c, hc)
    | none =>
      let r := generateMarketingCodeFromHash (nextHashOf w) hc
      (r.1, r.2.1)

/-! ## The access gate (POST branch of `home`) -/

/-- Per-browser session state (`flask.session` keys used by the gate).
`auth_error` holds `(message, current_code)`; `auth_data` records the
`(current, next)` codes exposed to the authenticated caller. -/
structure Session where
  authenticated : Bool
  last_access_code : Option String
  auth_error : Option (String × String)
  auth_data : Option (String × String)
deriving DecidableEq

/-- The initial (anonymous) session. -/
def anonSession : Session := ⟨false, none, none, none⟩

/-- The error message of the mismatch branch. -/
def invalidCodeMessage : String := "Invalid password. Please try again."

/-- Outcome of the POST handler: the post/redirect/get target, carrying
the data the caller observes. -/
inductive PostOutcome
  | redirectAuthenticated (currentCode nextCode : String)
  | redirectError
deriving DecidableEq

/-- The POST branch of `home` in `app.py`: compare the submitted password
with the resolved current code; on match set `session['authenticated']`,
`session['last_access_code']`, resolve the next code, store it in
`session['auth_data']` and redirect to `/authenticated`; on mismatch set
`session['auth_error']` (message plus the current code as hint) and
redirect back.  Database logging and personalization are wrapped in
`try/except` in the source and touch no session authentication state, so
they are elided here. -/
def homePost (w : World) (genCache : Option String) (hc : HashCache)
    (sess : Session) (password : String) :
    Except Unit (PostOutcome × Session × Option String × HashCache) :=
  match getCurrentMarketingCode w genCache with
  | .error e => .error e
  | .ok (current, genCache1) =>
    if password = current then
      let r := getNextMarketingCode w hc
      .ok (.redirectAuthenticated current r.1,
           { sess with authenticated := true,
                       last_access_code := some current,
                       auth_data := some (current, r.1) },
           genCache1, r.2)
    else
      .ok (.redirectError,
           { sess with auth_error := some (invalidCodeMessage, current) },
           genCache1, hc)

/-! ## Code recovery (`attempt_code_recovery` in `app.py`) -/

/-- One row of a visitor's access history.
Modelled from the spec: the database client module that produces the
history list (`scripts/database_client.py`, imported by `app.py`) is not
part of the source tree; per the specification's recovery path ("search
historical successful/attempted codes (newest first)") and the source's
own reading of `visitor_history[-5:]` as the "Last 5 attempts", the list
is ordered oldest first, so its last element is the most recent entry. -/
structure AccessEntry where
  access_code : String
  success : Bool
deriving DecidableEq

/-- The `recovery_method` tag of the returned dictionary. -/
inductive RecoveryMethod
  | currentCodeFallback
  | currentCodeNoHistory
  | previousSuccess
  | recentAttempt
  | currentCode
  | errorFallback
deriving DecidableEq

/-- The observable core of the recovery result: the suggested code and
the recovery method (the message and usage-pattern statistics of the
returned dictionary are derived from these same values). -/
structure RecoveryResult where
  suggested_code : String
  recovery_method : RecoveryMethod
deriving DecidableEq

/-- `attempt_code_recovery(visitor_id, ...)`: without a database
connection suggest the current live code; if the history lookup raises,
the outer `except` also suggests the current live code; with an empty
history suggest the current live code; otherwise suggest the last (most
recent) successful code, else the last of the final five attempts.
`history` is the value of `db_client.get_visitor_access_history`
(`Except.error` models a raised exception). -/
def attemptCodeRecovery (w : World) (genCache : Option String)
    (history : Except Unit (List AccessEntry)) :
    Except Unit (RecoveryResult × Option String) :=
  if pyTruthy w.dbConnStr = false then
    (getCurrentMarketingCode w genCache).map
      (fun p => (⟨p.1, .currentCodeFallback⟩, p.2))
  else
    match history with
    | .error _ =>
      (getCurrentMarketingCode w genCache).map
        (fun p => (⟨p.1, .errorFallback⟩, p.2))
    | .ok h =>
      if h.isEmpty then
        (getCurrentMarketingCode w genCache).map
          (fun p => (⟨p.1, .currentCodeNoHistory⟩, p.2))
      else
        let successfulCodes := (h.filter (fun e => e.success)).map (fun e => e.access_code)
        let recentCodes := (h.drop (h.length - 5)).map (fun e => e.access_code)
        match successfulCodes.getLast? with
        | some sc => .ok (⟨sc, .previousSuccess⟩, genCache)
        | none =>
          match recentCodes.getLast? with
          | some rc => .ok (⟨rc, .recentAttempt⟩, genCache)
          | none =>
            (getCurrentMarketingCode w genCache).map
              (fun p => (⟨p.1, .currentCode⟩, p.2))

/-! ## Marketing code manager (`scripts/database/marketing_code_manager.py`) -/

/-- One row of the `marketing_codes` table.  Timestamps are modelled as
integers (`valid_until` nullable). -/
structure CodeRow where
  rowId : Nat
  code : String
  description : String
  discount_percent : Int
  max_uses : Int
  current_uses : Int
  valid_from : Int
  valid_until : Option Int
  is_active : Bool
  updated_at : Int
deriving DecidableEq

/-- One row of the `code_usage_log` table:
`(code_id, user_id, ip_address, user_agent)`. -/
structure UsageLogRow where
  code_id : Nat
  user_id : Option Nat
  ip_address : Option String
  user_agent : Option String
deriving DecidableEq

/-- The database state the manager reads and mutates. -/
structure CodeDB where
  marketing_codes : List CodeRow
  code_usage_log : List UsageLogRow
deriving DecidableEq

/-- `get_code_info`: `SELECT ... FROM marketing_codes WHERE code = ?`
with `fetchone` (the `code` column is `UNIQUE`). -/
def getCodeInfo (db : CodeDB) (code : String) : Option CodeRow :=
  db.marketing_codes.find? (fun r => r.code = code)

/-- Result of `is_code_valid`: either `{'valid': False, 'reason': r}` or
`{'valid': True, 'code_info': info}`. -/
inductive Validation
  | invalid (reason : String)
  | valid (info : CodeRow)
deriving DecidableEq

/-- `is_code_valid(code)`: not found, inactive, expired (a non-null
`valid_until` strictly before now), or usage limit reached
(`max_uses > 0 and current_uses >= max_uses`); otherwise valid. -/
def isCodeValid (db : CodeDB) (now : Int) (code : String) : Validation :=
  match getCodeInfo db code with
  | none => .invalid "Code not found"
  | some info =>
    if info.is_active = false then .invalid "Code is inactive"
    else if (match info.valid_until with
             | some t => decide (t < now)
             | none => false) then .invalid "Code has expired"
    else if info.max_uses > 0 ∧ info.current_uses ≥ info.max_uses then
      .invalid "Code usage limit reached"
    else .valid info

/-- Result of `use_code`: the invalid validation dictionary passed
through unchanged, or the success dictionary. -/
inductive UseResult
  | invalid (reason : String)
  | used (code : String) (discount_percent : Int) (description : String)
deriving DecidableEq

/-- `use_code(code, user_id, ip_address, user_agent)`: validate first and
return the validation verbatim when invalid; otherwise increment the
row's `current_uses` (and `updated_at`), append a usage-log row, and
report success.  Returns the result together with the database state
after the call. -/
def useCode (db : CodeDB) (now : Int) (code : String) (userId : Option Nat)
    (ip ua : Option String) : UseResult × CodeDB :=
  match isCodeValid db now code with
  | .invalid r => (.invalid r, db)
  | .valid info =>
    let codes := db.marketing_codes.map (fun r =>
      if r.rowId = info.rowId then
        { r with current_uses := r.current_uses + 1, updated_at := now }
      else r)
    let logRows := db.code_usage_log ++ [⟨info.rowId, userId, ip, ua⟩]
    (.used code info.discount_percent info.description,
     ⟨codes, logRows⟩)

/-! ## Helper lemmas: character classes and decimal digits -/

lemma isDigit09_digitChar (n : Nat) : isDigit09 (digitChar n) = true := by
  unfold digitChar
  have h : n % 10 < 10 := Nat.mod_lt _ (by omega)
  generalize hk : n % 10 = k at h ⊢
  interval_cases k <;> decide

lemma isHexChar_hexDigitChar (n : Nat) : isHexChar (hexDigitChar n) = true := by
  unfold hexDigitChar
  have h : n % 16 < 16 := Nat.mod_lt _ (by omega)
  generalize hk : n % 16 = k at h ⊢
  interval_cases k <;> decide

lemma not_upper_of_digit {c : Char} (h : isDigit09 c = true) : isUpperAZ c = false := by
  simp only [isDigit09, Bool.and_eq_true, decide_eq_true_eq] at h
  simp only [isUpperAZ, Bool.and_eq_false_iff, decide_eq_false_iff_not]
  omega

lemma not_digit_of_symbol {c : Char} (h : isSymbolChar c = true) : isDigit09 c = false := by
  simp only [isSymbolChar, Bool.or_eq_true, decide_eq_true_eq] at h
  simp only [isDigit09, Bool.and_eq_false_iff, decide_eq_false_iff_not]
  omega

lemma decCharsAux_small {fuel n : Nat} (hf : 1 ≤ fuel) (hn : n < 10) :
    decCharsAux fuel n = [digitChar n] := by
  cases fuel with
  | zero => omega
  | succ f => simp [decCharsAux, hn]

lemma decCharsAux_digits :
    ∀ (fuel n : Nat), ∀ c ∈ decCharsAux fuel n, isDigit09 c = true := by
  intro fuel
  induction fuel with
  | zero => intro n c hc; simp [decCharsAux] at hc
  | succ f ih =>
    intro n c hc
    simp only [decCharsAux] at hc
    by_cases h : n < 10
    · rw [if_pos h] at hc
      simp only [List.mem_singleton] at hc
      exact hc ▸ isDigit09_digitChar n
    · rw [if_neg h] at hc
      rcases List.mem_append.mp hc with h1 | h1
      · exact ih _ c h1
      · simp only [List.mem_singleton] at h1
        exact h1 ▸ isDigit09_digitChar n

lemma decChars_digits {n : Nat} : ∀ c ∈ decChars n, isDigit09 c = true :=
  decCharsAux_digits (n + 1) n

lemma decChars_length {n : Nat} (h10 : 10 ≤ n) (h999 : n ≤ 999) :
    (decChars n).length = 2 ∨ (decChars n).length = 3 := by
  unfold decChars
  rw [show decCharsAux (n + 1) n = decCharsAux n (n / 10) ++ [digitChar n] by
        simp [decCharsAux, show ¬ n < 10 by omega]]
  by_cases hn : n < 100
  · rw [decCharsAux_small (by omega) (by omega)]
    left; simp
  · obtain ⟨m, rfl⟩ : ∃ m, n = m + 1 := ⟨n - 1, by omega⟩
    rw [show decCharsAux (m + 1) ((m + 1) / 10)
          = decCharsAux m ((m + 1) / 10 / 10) ++ [digitChar ((m + 1) / 10)] by
        simp [decCharsAux, show ¬ (m + 1) / 10 < 10 by omega]]
    rw [decCharsAux_small (by omega) (by omega)]
    right; simp

lemma decChars_ne_nil {n : Nat} (h10 : 10 ≤ n) (h999 : n ≤ 999) :
    decChars n ≠ [] := by
  rcases decChars_length h10 h999 with h | h <;>
    exact fun hnil => by simp [hnil] at h

/-! ## Helper lemmas: the closed word and symbol lists -/

lemma mem_marketingWords_props {w : String} (hw : w ∈ marketingWords) :
    w.data ≠ [] ∧ ∀ c ∈ w.data, isUpperAZ c = true := by
  have hall : marketingWords.all
      (fun w => !w.data.isEmpty && w.data.all (fun c => isUpperAZ c)) = true := by decide
  have := List.all_eq_true.mp hall w hw
  simp only [Bool.and_eq_true, Bool.not_eq_true', List.isEmpty_eq_false,
    List.all_eq_true] at this
  exact ⟨this.1, this.2⟩

lemma mem_asciiSymbols_props {s : String} (hs : s ∈ asciiSymbols) :
    ∃ c, s.data = [c] ∧ isSymbolChar c = true := by
  have hall : asciiSymbols.all
      (fun s => match s.data with
                | [c] => isSymbolChar c
                | _ => false) = true := by decide
  have hmem := List.all_eq_true.mp hall s hs
  match hd : s.data with
  | [] => rw [hd] at hmem; simp at hmem
  | [c] => exact ⟨c, rfl, by rw [hd] at hmem; exact hmem⟩
  | _ :: _ :: _ => rw [hd] at hmem; simp at hmem

/-! ## Helper lemmas: the format matcher -/

lemma matchesCodeFormat_parts {w : String} {n : Nat} {s : String}
    (hw : w ∈ marketingWords) (h10 : 10 ≤ n) (h999 : n ≤ 999)
    (hs : s ∈ asciiSymbols) :
    matchesCodeFormat (w ++ natDecString n ++ s) = true := by
  obtain ⟨hwne, hwall⟩ := mem_marketingWords_props hw
  obtain ⟨c, hcdata, hcsym⟩ := mem_asciiSymbols_props hs
  have hdata : (w ++ natDecString n ++ s).data = w.data ++ (decChars n ++ [c]) := by
    simp [natDecString, hcdata]
  unfold matchesCodeFormat
  rw [hdata]
  obtain ⟨d, ds, hds⟩ : ∃ d ds, decChars n = d :: ds := by
    cases hdd : decChars n with
    | nil => exact absurd hdd (decChars_ne_nil h10 h999)
    | cons d ds => exact ⟨d, ds, rfl⟩
  have hdigit_d : isDigit09 d = true := decChars_digits (n := n) d (by rw [hds]; simp)
  rw [List.takeWhile_append_of_pos hwall, List.dropWhile_append_of_pos hwall]
  rw [hds, List.cons_append, List.takeWhile_cons, List.dropWhile_cons]
  rw [not_upper_of_digit hdigit_d]
  simp only [Bool.false_eq_true, if_false]
  rw [← List.cons_append, ← hds]
  have hdigs : ∀ x ∈ decChars n, isDigit09 x = true := decChars_digits
  rw [List.takeWhile_append_of_pos hdigs, List.dropWhile_append_of_pos hdigs]
  rw [List.takeWhile_cons, List.dropWhile_cons, not_digit_of_symbol hcsym]
  simp only [Bool.false_eq_true, if_false, List.takeWhile_nil, List.dropWhile_nil]
  simp only [List.append_nil, Bool.and_eq_true, Bool.not_eq_true',
    List.isEmpty_eq_false, Bool.or_eq_true, beq_iff_eq]
  refine ⟨⟨?_, ?_⟩, hcsym⟩
  · simp [hwne]
  · rcases decChars_length h10 h999 with h | h
    · left; exact h
    · right; exact h

/-! ## Helper lemmas: the generation body -/

lemma getD_mem_of_lt {l : List String} {i : Nat} (hlt : i < l.length) :
    l.getD i "" ∈ l := by
  rw [List.getD_eq_getElem?_getD, List.getElem?_eq_getElem hlt]
  exact List.getElem_mem hlt

lemma genBody_parts (h : Int) :
    ∃ w n s, w ∈ marketingWords ∧ 10 ≤ n ∧ n ≤ 999 ∧ s ∈ asciiSymbols ∧
      genBody h = w ++ natDecString n ++ s := by
  refine ⟨marketingWords.getD
            ((prngNext (randomSeed h)).1 % marketingWords.length) "",
          10 + (prngNext (prngNext (prngNext (randomSeed h)).2).2).1 % 990,
          asciiSymbols.getD
            ((prngNext (prngNext (randomSeed h)).2).1 % asciiSymbols.length) "",
          getD_mem_of_lt (Nat.mod_lt _ (by decide)), by omega, ?_,
          getD_mem_of_lt (Nat.mod_lt _ (by decide)), rfl⟩
  have := Nat.mod_lt (prngNext (prngNext (prngNext (randomSeed h)).2).2).1
    (show 0 < 990 by omega)
  omega

lemma genBody_format (h : Int) : matchesCodeFormat (genBody h) = true := by
  obtain ⟨w, n, s, hw, h1, h2, hs, he⟩ := genBody_parts h
  rw [he]
  exact matchesCodeFormat_parts hw h1 h2 hs

lemma genBody_ne_empty (h : Int) : genBody h ≠ "" := by
  obtain ⟨w, n, s, hw, _, _, _, he⟩ := genBody_parts h
  obtain ⟨hwne, _⟩ := mem_marketingWords_props hw
  intro hcon
  have hd := congrArg String.data (he ▸ hcon)
  simp only [String.data_append] at hd
  have : w.data = [] := by
    cases hwd : w.data with
    | nil => rfl
    | cons a l => rw [hwd] at hd; simp at hd
  exact hwne this

/-! ## Helper lemmas: the hash-code cache -/

/-- Cache well-formedness: every stored value is the one the generation
algorithm produces for its key.  Holds for the empty cache and is
preserved by every call; only the function itself writes the cache in
the source. -/
def CacheWF (c : HashCache) : Prop :=
  ∀ k v, cacheLookup c k = some v → v = genBody (hashNum k)

lemma cacheWF_nil : CacheWF [] := by
  intro k v h
  simp [cacheLookup] at h

lemma cacheLookup_cons (k s v : String) (c : HashCache) :
    cacheLookup ((s, v) :: c) k = if s = k then some v else cacheLookup c k := by
  by_cases h : s = k <;> simp [cacheLookup, List.find?_cons, h]

lemma genFromHash_value {s : String} {c : HashCache} (hwf : CacheWF c) :
    (generateMarketingCodeFromHash s c).1 = genBody (hashNum s) := by
  unfold generateMarketingCodeFromHash
  cases hl : cacheLookup c s with
  | none => rfl
  | some v => exact hwf s v hl

lemma genFromHash_preserves {s : String} {c : HashCache} (hwf : CacheWF c) :
    CacheWF (generateMarketingCodeFromHash s c).2.1 := by
  unfold generateMarketingCodeFromHash
  cases hl : cacheLookup c s with
  | none =>
    intro k v h
    rw [cacheLookup_cons] at h
    by_cases hk : s = k
    · rw [if_pos hk] at h
      cases h
      rw [hk]
    · rw [if_neg hk] at h
      exact hwf k v h
  | some v => exact hwf

lemma genFromHash_lookup_after {s : String} {c : HashCache} :
    cacheLookup (generateMarketingCodeFromHash s c).2.1 s =
      some (generateMarketingCodeFromHash s c).1 := by
  unfold generateMarketingCodeFromHash
  cases hl : cacheLookup c s with
  | none => rw [cacheLookup_cons, if_pos rfl]
  | some v => exact hl

/-! ## Helper lemmas: the resolver chain -/

/-- A store lookup that raised, found nothing, or found a falsy value. -/
def StoreMiss (o : Option (Option String)) : Prop :=
  ∀ c, o = some (some c) → c = ""

lemma storeHit_eq_none {o : Option (Option String)} (h : StoreMiss o) :
    storeHit o = none := by
  match o with
  | none => rfl
  | some none => rfl
  | some (some c) =>
    have hc := h c rfl
    subst hc
    decide

lemma ifStore_none (b : Bool) {o : Option (Option String)} (h : StoreMiss o) :
    (if b then storeHit o else none) = none := by
  cases b <;> simp [storeHit_eq_none h]

/-- The commit identifier is non-empty plain hexadecimal.  Always true on
the md5-fallback path, and true of any real `git rev-parse` output. -/
def GitOk (w : World) : Prop :=
  (commitHash8 w).data ≠ [] ∧ (commitHash8 w).data.all isHexChar = true

/-- Well-formedness of `_generated_code_cache`: a cached value is the one
a fresh generation under the same world would produce.  Holds initially
(`none`) and after every call. -/
def GenCacheWF (w : World) (c : Option String) : Prop :=
  ∀ v, c = some v → generateMarketingCode w none = .ok (v, some v)

lemma generateMarketingCode_fresh {w : World} (hgit : GitOk w) :
    ∃ v, generateMarketingCode w none = .ok (v, some v) ∧
      matchesCodeFormat v = true ∧ v ≠ "" := by
  cases hx : intHex? (commitHash8 w) with
  | none =>
    exact absurd hx (by unfold intHex?; rw [if_pos ⟨hgit.1, hgit.2⟩]; simp)
  | some n =>
    exact ⟨genBody n, by simp [generateMarketingCode, hx],
           genBody_format _, genBody_ne_empty _⟩

lemma generateMarketingCode_ok {w : World} {c : Option String}
    (hgit : GitOk w) (hwf : GenCacheWF w c) :
    ∃ v c2, generateMarketingCode w c = .ok (v, c2) ∧
      matchesCodeFormat v = true ∧ v ≠ "" := by
  cases c with
  | none =>
    obtain ⟨v, h1, h2, h3⟩ := generateMarketingCode_fresh hgit
    exact ⟨v, some v, h1, h2, h3⟩
  | some v =>
    obtain ⟨v2, h1, h2, h3⟩ := generateMarketingCode_fresh hgit
    have hv := hwf v rfl
    rw [hv] at h1
    have hvv : v = v2 := by cases h1; rfl
    subst hvv
    exact ⟨v, some v, rfl, h2, h3⟩

/-! ## Claim theorems: the generator and its cache -/

/-- Cache well-formedness relative to the process with hash salt `salt`:
every stored value is the one the generation algorithm of that process
produces for its key. -/
def CacheWFInRun (salt : Nat) (c : HashCache) : Prop :=
  ∀ k v, cacheLookup c k = some v → v = genBody (hashNumInRun salt k)

lemma cacheWFInRun_nil (salt : Nat) : CacheWFInRun salt [] := by
  intro k v h
  simp [cacheLookup] at h

lemma genFromHashInRun_value {salt : Nat} {s : String} {c : HashCache}
    (hwf : CacheWFInRun salt c) :
    (generateMarketingCodeFromHashInRun salt s c).1 =
      genBody (hashNumInRun salt s) := by
  unfold generateMarketingCodeFromHashInRun
  cases hl : cacheLookup c s with
  | none => rfl
  | some v => exact hwf s v hl

lemma genFromHashInRun_preserves {salt : Nat} {s : String} {c : HashCache}
    (hwf : CacheWFInRun salt c) :
    CacheWFInRun salt (generateMarketingCodeFromHashInRun salt s c).2.1 := by
  unfold generateMarketingCodeFromHashInRun
  cases hl : cacheLookup c s with
  | none =>
    intro k v h
    rw [cacheLookup_cons] at h
    by_cases hk : s = k
    · rw [if_pos hk] at h
      cases h
      rw [hk]
    · rw [if_neg hk] at h
      exact hwf k v h
  | some v => exact hwf

/-- For a non-empty valid-hexadecimal seed the numeric seed is read in
base 16 and does not depend on the process hash salt. -/
lemma hashNumInRun_hex {salt : Nat} {s : String} (hne : s.data ≠ [])
    (hhex : s.data.all isHexChar = true) :
    hashNumInRun salt s =
      ((s.data.foldl (fun a c => a * 16 + hexDigitVal c) 0 : Nat) : Int) := by
  have hunk : s ≠ "unknown" := by
    intro hcon
    subst hcon
    revert hhex
    decide
  unfold hashNumInRun
  rw [if_pos ⟨hunk, hhex⟩]
  unfold intHex?
  rw [if_pos ⟨hne, hhex⟩]

/-- The reference process (salt 0) is the within-run embedding. -/
lemma genFromHashInRun_zero (s : String) (c : HashCache) :
    generateMarketingCodeFromHashInRun 0 s c =
      generateMarketingCodeFromHash s c := rfl

/-- Claim C3 counterexample: the claim's "across runs" half is false.
For the non-hexadecimal seed `"next_unknown"` — a seed the program itself
uses in `get_next_marketing_code` — the numeric seed is
`hash(commit_hash)`, which is salted per process, so two fresh runs with
different hash salts generate different code strings. -/
theorem generator_deterministic_counterexample :
    (generateMarketingCodeFromHashInRun 0 "next_unknown" []).1 ≠
      (generateMarketingCodeFromHashInRun 1 "next_unknown" []).1 := by
  decide

/-- Claim C3 as amended: for every seed string `s`, two calls of the code
generator with `s` in the same run yield identical output strings (the
second call through the shared cache, and any call against a fresh cache
of that run, return the first call's value); across runs, outputs for `s`
coincide whenever the seed is a non-empty valid-hexadecimal string, whose
interpretation is content-deterministic and independent of the process
hash salt. -/
theorem generator_deterministic_amended (salt : Nat) (s : String)
    (c : HashCache) (hwf : CacheWFInRun salt c) :
    (generateMarketingCodeFromHashInRun salt s
        (generateMarketingCodeFromHashInRun salt s c).2.1).1 =
      (generateMarketingCodeFromHashInRun salt s c).1 ∧
    (generateMarketingCodeFromHashInRun salt s []).1 =
      (generateMarketingCodeFromHashInRun salt s c).1 ∧
    (∀ salt2, s.data ≠ [] → s.data.all isHexChar = true →
      (generateMarketingCodeFromHashInRun salt2 s []).1 =
        (generateMarketingCodeFromHashInRun salt s []).1) := by
  refine ⟨?_, ?_, ?_⟩
  · rw [genFromHashInRun_value (genFromHashInRun_preserves hwf),
        genFromHashInRun_value hwf]
  · rw [genFromHashInRun_value (cacheWFInRun_nil salt),
        genFromHashInRun_value hwf]
  · intro salt2 hne hhex
    rw [genFromHashInRun_value (cacheWFInRun_nil salt2),
        genFromHashInRun_value (cacheWFInRun_nil salt),
        hashNumInRun_hex hne hhex, hashNumInRun_hex hne hhex]

/-- Witness for the amended C3 at salt 0 and the hexadecimal seed
`"abcdef12"` with the empty cache. -/
theorem generator_deterministic_amended_witness :
    (generateMarketingCodeFromHashInRun 0 "abcdef12"
        (generateMarketingCodeFromHashInRun 0 "abcdef12" []).2.1).1 =
      (generateMarketingCodeFromHashInRun 0 "abcdef12" []).1 ∧
    (generateMarketingCodeFromHashInRun 0 "abcdef12" []).1 =
      (generateMarketingCodeFromHashInRun 0 "abcdef12" []).1 ∧
    (∀ salt2, "abcdef12".data ≠ [] → "abcdef12".data.all isHexChar = true →
      (generateMarketingCodeFromHashInRun salt2 "abcdef12" []).1 =
        (generateMarketingCodeFromHashInRun 0 "abcdef12" []).1) :=
  generator_deterministic_amended 0 "abcdef12" [] (cacheWFInRun_nil 0)

/-- Claim C5: for every seed string, the generated code value matches
`^[A-Z]+[0-9]{2,3}[!@#$%^&*+=?~]$`, with the word drawn from the closed
marketing-word list, the number in `[10, 999]`, and the symbol drawn from
the closed ASCII symbol set. -/
theorem generated_code_format (s : String) (c : HashCache) (hwf : CacheWF c) :
    matchesCodeFormat (generateMarketingCodeFromHash s c).1 = true ∧
    ∃ w n sym, w ∈ marketingWords ∧ 10 ≤ n ∧ n ≤ 999 ∧ sym ∈ asciiSymbols ∧
      (generateMarketingCodeFromHash s c).1 = w ++ natDecString n ++ sym := by
  rw [genFromHash_value hwf]
  exact ⟨genBody_format _, genBody_parts _⟩

/-- Witness for C5 at the seed `"abcdef12"` with the empty cache. -/
theorem generated_code_format_witness :
    matchesCodeFormat (generateMarketingCodeFromHash "abcdef12" []).1 = true ∧
    ∃ w n sym, w ∈ marketingWords ∧ 10 ≤ n ∧ n ≤ 999 ∧ sym ∈ asciiSymbols ∧
      (generateMarketingCodeFromHash "abcdef12" []).1 =
        w ++ natDecString n ++ sym :=
  generated_code_format "abcdef12" [] cacheWF_nil

/-- Claim C7: after the first generation for a seed, a subsequent call
with the same seed returns the stored value with zero further invocations
of the generation algorithm, and the stored value is exactly what the
generation algorithm produces for that seed. -/
theorem code_cache_idempotent (s : String) (c : HashCache) (hwf : CacheWF c) :
    generateMarketingCodeFromHash s (generateMarketingCodeFromHash s c).2.1 =
      ((generateMarketingCodeFromHash s c).1,
       (generateMarketingCodeFromHash s c).2.1, 0) ∧
    (generateMarketingCodeFromHash s c).1 = genBody (hashNum s) := by
  constructor
  · cases hl : cacheLookup c s with
    | some v => simp [generateMarketingCodeFromHash, hl]
    | none => simp [generateMarketingCodeFromHash, hl, cacheLookup_cons]
  · exact genFromHash_value hwf

/-- Witness for C7 at the seed `"abcdef12"` with the empty cache. -/
theorem code_cache_idempotent_witness :
    generateMarketingCodeFromHash "abcdef12"
        (generateMarketingCodeFromHash "abcdef12" []).2.1 =
      ((generateMarketingCodeFromHash "abcdef12" []).1,
       (generateMarketingCodeFromHash "abcdef12" []).2.1, 0) ∧
    (generateMarketingCodeFromHash "abcdef12" []).1 =
      genBody (hashNum "abcdef12") :=
  code_cache_idempotent "abcdef12" [] cacheWF_nil

/-- Claim C8: the generator is total — every input string (the empty
string and non-hexadecimal strings included) yields a format-valid code
string; a non-empty valid-hexadecimal seed is interpreted as a base-16
integer, and any other seed (non-hex content, or the empty string whose
`int` conversion raises and is caught) falls back to the content-derived
integer. -/
theorem generator_total_seed_interpretation (s : String) (c : HashCache)
    (hwf : CacheWF c) :
    matchesCodeFormat (generateMarketingCodeFromHash s c).1 = true ∧
    (s.data ≠ [] → s.data.all isHexChar = true →
      hashNum s = ((s.data.foldl (fun a ch => a * 16 + hexDigitVal ch) 0 : Nat) : Int)) ∧
    (s.data.all isHexChar = false → hashNum s = pyHash s) ∧
    (s = "" → hashNum s = pyHash s) := by
  refine ⟨?_, ?_, ?_, ?_⟩
  · rw [genFromHash_value hwf]
    exact genBody_format _
  · intro hne hhex
    have hunk : s ≠ "unknown" := by
      intro hcon
      subst hcon
      revert hhex
      decide
    unfold hashNum
    rw [if_pos ⟨hunk, hhex⟩]
    unfold intHex?
    rw [if_pos ⟨hne, hhex⟩]
  · intro hhex
    unfold hashNum
    rw [if_neg (fun hcon => by simp [hcon.2] at hhex)]
  · intro hemp
    subst hemp
    decide

/-- Witness for C8 at the hexadecimal seed `"abcdef12"` with the empty
cache. -/
theorem generator_total_seed_interpretation_witness :
    matchesCodeFormat (generateMarketingCodeFromHash "abcdef12" []).1 = true ∧
    ("abcdef12".data ≠ [] → "abcdef12".data.all isHexChar = true →
      hashNum "abcdef12" =
        (("abcdef12".data.foldl (fun a ch => a * 16 + hexDigitVal ch) 0 : Nat) : Int)) ∧
    ("abcdef12".data.all isHexChar = false →
      hashNum "abcdef12" = pyHash "abcdef12") ∧
    ("abcdef12" = "" → hashNum "abcdef12" = pyHash "abcdef12") :=
  generator_total_seed_interpretation "abcdef12" [] cacheWF_nil

/-! ## Claim theorems: the resolver -/

/-- The world in which git, every store, and every environment variable
are absent. -/
def wAllNone : World := ⟨none, none, none, none, none, none, none, none, none⟩

/-- Claim C2: when every external store lookup (database and secret
manager) raises or returns nothing and no environment override is set,
resolving the current code still returns (without any failure
propagating) a non-empty string matching the generated-code format. -/
theorem resolver_fallback_total (w : World) (c : Option String)
    (hdb : pyTruthy w.dbConnStr = false ∨ StoreMiss w.dbCurrent)
    (hsm : StoreMiss w.smCurrent)
    (henv : w.buildMarketingCode = none)
    (hgit : GitOk w) (hwf : GenCacheWF w c) :
    ∃ v c2, getCurrentMarketingCode w c = .ok (v, c2) ∧
      v ≠ "" ∧ matchesCodeFormat v = true := by
  have hdb2 : (if pyTruthy w.dbConnStr then storeHit w.dbCurrent else none) = none := by
    rcases hdb with h | h
    · rw [h, if_neg]
      simp
    · exact ifStore_none _ h
  obtain ⟨v, c2, h1, h2, h3⟩ := generateMarketingCode_ok hgit hwf
  unfold getCurrentMarketingCode
  rw [hdb2, storeHit_eq_none hsm, henv]
  exact ⟨v, c2, by simpa [pyTruthy] using h1, h3, h2⟩

/-- Witness for C2: the world with no git, no stores and no environment
variables, with an empty generation cache. -/
theorem resolver_fallback_total_witness :
    ∃ v c2, getCurrentMarketingCode wAllNone none = .ok (v, c2) ∧
      v ≠ "" ∧ matchesCodeFormat v = true :=
  resolver_fallback_total wAllNone none (Or.inl rfl)
    (fun c h => Option.noConfusion h) rfl ⟨by decide, by decide⟩
    (fun v h => Option.noConfusion h)

/-- Claim C9: with both stores yielding nothing, resolving the current
code falls back to the `BUILD_MARKETING_CODE` environment value when set,
before generation; resolving the next code never consults that override
(its result is invariant under changing it) and falls back directly to
generation from the deployment identifier with the `"_next"` suffix. -/
theorem env_override_current_only (w : World) (c : Option String)
    (hc : HashCache) (b : String)
    (hdb : StoreMiss w.dbCurrent) (hsm : StoreMiss w.smCurrent)
    (hdbn : StoreMiss w.dbNext) (hsmn : StoreMiss w.smNext)
    (henv : w.buildMarketingCode = some b) (hb : b ≠ "") :
    getCurrentMarketingCode w c = .ok (b, c) ∧
    (∀ x, getNextMarketingCode { w with buildMarketingCode := x } hc =
          getNextMarketingCode w hc) ∧
    getNextMarketingCode w hc =
      ((generateMarketingCodeFromHash (nextHashOf w) hc).1,
       (generateMarketingCodeFromHash (nextHashOf w) hc).2.1) := by
  refine ⟨?_, ?_, ?_⟩
  · unfold getCurrentMarketingCode
    rw [ifStore_none _ hdb, storeHit_eq_none hsm, henv]
    simp [pyTruthy, hb]
  · intro x
    cases w
    rfl
  · unfold getNextMarketingCode
    rw [ifStore_none _ hdbn, storeHit_eq_none hsmn]

/-- The world of the C9 witness: stores and git absent, the environment
override pinned to `"PINNED1!"`. -/
def wPinned : World :=
  ⟨none, none, none, none, none, none, none, none, some "PINNED1!"⟩

/-- Witness for C9 at the pinned-override world with empty caches. -/
theorem env_override_current_only_witness :
    getCurrentMarketingCode wPinned none = .ok ("PINNED1!", none) ∧
    (∀ x, getNextMarketingCode { wPinned with buildMarketingCode := x } [] =
          getNextMarketingCode wPinned []) ∧
    getNextMarketingCode wPinned [] =
      ((generateMarketingCodeFromHash (nextHashOf wPinned) []).1,
       (generateMarketingCodeFromHash (nextHashOf wPinned) []).2.1) :=
  env_override_current_only wPinned none [] "PINNED1!"
    (fun c h => Option.noConfusion h) (fun c h => Option.noConfusion h)
    (fun c h => Option.noConfusion h) (fun c h => Option.noConfusion h)
    rfl (by decide)

/-! ## Claim theorems: the access gate -/

/-- Claim C1: submitting a string equal (exact, case-sensitive) to the
resolved current marketing code makes the POST handler set the session's
authenticated flag to `true`, set its `last_access_code` to the current
code, and expose the resolved next marketing code to the caller (in the
redirect outcome and in the session's `auth_data`). -/
theorem gate_success_authenticates (w : World) (genC : Option String)
    (hc : HashCache) (sess : Session) (password current : String)
    (genC1 : Option String)
    (hres : getCurrentMarketingCode w genC = .ok (current, genC1))
    (hpw : password = current) :
    homePost w genC hc sess password =
      .ok (.redirectAuthenticated current (getNextMarketingCode w hc).1,
           { sess with authenticated := true,
                       last_access_code := some current,
                       auth_data := some (current, (getNextMarketingCode w hc).1) },
           genC1, (getNextMarketingCode w hc).2) ∧
    ∀ out sess2 st, homePost w genC hc sess password = .ok (out, sess2, st) →
      sess2.authenticated = true ∧ sess2.last_access_code = some current := by
  subst hpw
  have hmain : homePost w genC hc sess password =
      .ok (.redirectAuthenticated password (getNextMarketingCode w hc).1,
           { sess with authenticated := true,
                       last_access_code := some password,
                       auth_data := some (password, (getNextMarketingCode w hc).1) },
           genC1, (getNextMarketingCode w hc).2) := by
    unfold homePost
    rw [hres]
    simp
  refine ⟨hmain, ?_⟩
  intro out sess2 st hout
  rw [hmain] at hout
  cases hout
  exact ⟨rfl, rfl⟩

/-- The world of the gate witnesses: no git, no stores, the current code
pinned to `"CLOUD123!"` by the environment override. -/
def wGate : World :=
  ⟨none, none, none, none, none, none, none, none, some "CLOUD123!"⟩

/-- Witness for C1: submitting `"CLOUD123!"` against current code
`"CLOUD123!"` from an anonymous session. -/
theorem gate_success_authenticates_witness :
    homePost wGate none [] anonSession "CLOUD123!" =
      .ok (.redirectAuthenticated "CLOUD123!" (getNextMarketingCode wGate []).1,
           { anonSession with authenticated := true,
                              last_access_code := some "CLOUD123!",
                              auth_data := some ("CLOUD123!", (getNextMarketingCode wGate []).1) },
           none, (getNextMarketingCode wGate []).2) ∧
    ∀ out sess2 st, homePost wGate none [] anonSession "CLOUD123!" = .ok (out, sess2, st) →
      sess2.authenticated = true ∧ sess2.last_access_code = some "CLOUD123!" :=
  gate_success_authenticates wGate none [] anonSession "CLOUD123!" "CLOUD123!"
    none rfl rfl

/-- Claim C6: submitting a string different from the resolved current
code leaves the session's authenticated flag and `last_access_code`
unchanged, and the handler's outcome is the error redirect whose session
error carries the invalid-code message together with the current code as
hint. -/
theorem gate_mismatch_keeps_state (w : World) (genC : Option String)
    (hc : HashCache) (sess : Session) (password current : String)
    (genC1 : Option String)
    (hres : getCurrentMarketingCode w genC = .ok (current, genC1))
    (hpw : password ≠ current) :
    homePost w genC hc sess password =
      .ok (.redirectError,
           { sess with auth_error := some (invalidCodeMessage, current) },
           genC1, hc) ∧
    ({ sess with auth_error := some (invalidCodeMessage, current) } : Session).authenticated
      = sess.authenticated ∧
    ({ sess with auth_error := some (invalidCodeMessage, current) } : Session).last_access_code
      = sess.last_access_code := by
  refine ⟨?_, rfl, rfl⟩
  unfold homePost
  rw [hres]
  simp [hpw]

/-- Witness for C6: the specification's example — submitting `"WRONG1!"`
against current code `"CLOUD123!"`. -/
theorem gate_mismatch_keeps_state_witness :
    homePost wGate none [] anonSession "WRONG1!" =
      .ok (.redirectError,
           { anonSession with auth_error := some (invalidCodeMessage, "CLOUD123!") },
           none, []) ∧
    ({ anonSession with auth_error := some (invalidCodeMessage, "CLOUD123!") } : Session).authenticated
      = anonSession.authenticated ∧
    ({ anonSession with auth_error := some (invalidCodeMessage, "CLOUD123!") } : Session).last_access_code
      = anonSession.last_access_code :=
  gate_mismatch_keeps_state wGate none [] anonSession "WRONG1!" "CLOUD123!"
    none rfl (by decide)

/-! ## Claim theorems: code recovery -/

lemma getLast?_drop_five {α : Type} (l : List α) :
    (l.drop (l.length - 5)).getLast? = l.getLast? := by
  by_cases h5 : l.length ≤ 5
  · rw [show l.length - 5 = 0 by omega, List.drop_zero]
  · have hne : l.drop (l.length - 5) ≠ [] := by
      rw [Ne, List.drop_eq_nil_iff]
      omega
    conv_rhs => rw [← List.take_append_drop (l.length - 5) l]
    rw [List.getLast?_append_of_ne_nil _ hne]

/-- Claim C4: with the database connected and the history retrieved, the
recovery function suggests the most recent (last) successful entry's code
when one exists, otherwise the most recent attempt's code when the
history is non-empty, otherwise the resolved current live code. -/
theorem recovery_ordering (w : World) (genC : Option String)
    (h : List AccessEntry) (hdb : pyTruthy w.dbConnStr = true) :
    (∀ e, (h.filter (fun a => a.success)).getLast? = some e →
       attemptCodeRecovery w genC (.ok h) =
         .ok (⟨e.access_code, .previousSuccess⟩, genC)) ∧
    ((h.filter (fun a => a.success)) = [] → ∀ e, h.getLast? = some e →
       attemptCodeRecovery w genC (.ok h) =
         .ok (⟨e.access_code, .recentAttempt⟩, genC)) ∧
    (h = [] → attemptCodeRecovery w genC (.ok h) =
       (getCurrentMarketingCode w genC).map
         (fun p => (⟨p.1, .currentCodeNoHistory⟩, p.2))) := by
  refine ⟨?_, ?_, ?_⟩
  · intro e he
    have hne : h ≠ [] := by
      intro hcon
      subst hcon
      simp at he
    unfold attemptCodeRecovery
    rw [if_neg (by simp [hdb])]
    have hsc : ((h.filter (fun a => a.success)).map
        (fun a => a.access_code)).getLast? = some e.access_code := by
      rw [List.getLast?_map, he]
      rfl
    simp only [List.isEmpty_eq_true, hne, if_false]
    rw [hsc]
  · intro hfil e he
    have hne : h ≠ [] := by
      intro hcon
      subst hcon
      simp at he
    unfold attemptCodeRecovery
    rw [if_neg (by simp [hdb])]
    have hsc : ((h.filter (fun a => a.success)).map
        (fun a => a.access_code)).getLast? = none := by
      rw [List.getLast?_map, hfil]
      rfl
    have hrc : (((h.drop (h.length - 5)).map
        (fun a => a.access_code))).getLast? = some e.access_code := by
      rw [List.getLast?_map, getLast?_drop_five, he]
      rfl
    simp only [List.isEmpty_eq_true, hne, if_false]
    rw [hsc, hrc]
  · intro hcon
    subst hcon
    unfold attemptCodeRecovery
    rw [if_neg (by simp [hdb])]
    simp

/-- The world of the C4 witness: a database connection configured. -/
def wDb : World :=
  ⟨none, none, none, some "sqlite:mem", none, none, none, none, none⟩

/-- The C4 witness history: one early success, then two later failed
attempts (oldest first). -/
def histC4 : List AccessEntry := [⟨"OLD1!", true⟩, ⟨"TRY2", false⟩, ⟨"TRY3", false⟩]

/-- Witness for C4: the recovery function suggests the earlier success
`"OLD1!"`, not the most recent attempt `"TRY3"`. -/
theorem recovery_ordering_witness :
    (∀ e, (histC4.filter (fun a => a.success)).getLast? = some e →
       attemptCodeRecovery wDb none (.ok histC4) =
         .ok (⟨e.access_code, .previousSuccess⟩, none)) ∧
    ((histC4.filter (fun a => a.success)) = [] → ∀ e, histC4.getLast? = some e →
       attemptCodeRecovery wDb none (.ok histC4) =
         .ok (⟨e.access_code, .recentAttempt⟩, none)) ∧
    (histC4 = [] → attemptCodeRecovery wDb none (.ok histC4) =
       (getCurrentMarketingCode wDb none).map
         (fun p => (⟨p.1, .currentCodeNoHistory⟩, p.2))) :=
  recovery_ordering wDb none histC4 (by decide)

/-! ## Claim theorems: the marketing code manager -/

/-- Claim C10: when validation reports invalid, `use_code` returns that
validation result unchanged and performs no database mutation — both the
`marketing_codes` table (hence every `current_uses` counter) and the
`code_usage_log` are exactly as before. -/
theorem use_code_invalid_pure (db : CodeDB) (now : Int) (code : String)
    (userId : Option Nat) (ip ua : Option String) (r : String)
    (hinv : isCodeValid db now code = .invalid r) :
    useCode db now code userId ip ua = (.invalid r, db) ∧
    (useCode db now code userId ip ua).2.marketing_codes = db.marketing_codes ∧
    (useCode db now code userId ip ua).2.code_usage_log = db.code_usage_log := by
  have hmain : useCode db now code userId ip ua = (.invalid r, db) := by
    unfold useCode
    rw [hinv]
  exact ⟨hmain, by rw [hmain], by rw [hmain]⟩

/-- The database of the C10 witness: a single inactive code row and an
empty usage log. -/
def dbC10 : CodeDB :=
  ⟨[⟨1, "SAVE10", "Ten percent off", 10, -1, 0, 0, none, false, 0⟩], []⟩

/-- Witness for C10: using the inactive code `"SAVE10"` returns the
inactive-validation result and leaves the database untouched. -/
theorem use_code_invalid_pure_witness :
    useCode dbC10 0 "SAVE10" none none none = (.invalid "Code is inactive", dbC10) ∧
    (useCode dbC10 0 "SAVE10" none none none).2.marketing_codes = dbC10.marketing_codes ∧
    (useCode dbC10 0 "SAVE10" none none none).2.code_usage_log = dbC10.code_usage_log :=
  use_code_invalid_pure dbC10 0 "SAVE10" none none none "Code is inactive" rfl

end YourlCloud
